import Mathlib

/-!
Verification of the real-time GNSS cache subsystem of `pi_backend`
(`hardware_manager.py`): the stream-reader loop `_gps_reader_thread`,
the lock-protected cache `_latest_gps_data`, the query façade
`get_best_gnss_data`, and the singleton construction
`HardwareManager.__new__` / `__init__`.

Modelling conventions:
* JSON values parsed by `json.loads` are modelled by the inductive `Json`;
  a raw input line is modelled by its parse result `Option Json`
  (`none` = `json.JSONDecodeError`, which the source catches and skips).
* Python `dict`s produced by `json.loads` are association lists
  `List (String × Json)` (keys unique in any real parse; lookup is
  first-match).  `dict.get(k)` returns Python `None` both for a missing
  key and for a key whose value is JSON `null`; `pyGet` collapses both
  to `none`.  `dict.get(k, d)` returns the default only for a missing
  key; `pyGetD` mirrors that.
* Wall-clock time (`time.time()`) is modelled as a rational number.
* Exceptions that can escape the inner `try` of the reader loop, and the
  `TypeError` that `fix_type_map.get` raises on an unhashable key, are
  modelled with `Except PyExc`.
-/

namespace PiBackend

abbrev Time := ℚ

/-- A JSON value as produced by `json.loads`. -/
inductive Json where
  | null
  | bool (b : Bool)
  | num (q : ℚ)
  | str (s : String)
  | arr (elems : List Json)
  | obj (fields : List (String × Json))

/-- Python exceptions relevant to the reader loop and the façade. -/
inductive PyExc where
  | typeError
  | keyError
  | fileNotFoundError
  | other

/-- First-match lookup in an association list, i.e. Python `d[k]` /
`k in d` on a dict parsed from JSON (keys unique). -/
def lookupKey : List (String × Json) → String → Option Json
  | [], _ => none
  | (k, v) :: rest, key => if k = key then some v else lookupKey rest key

/-- Python `==` between the string `"class"` and a JSON value (used by
`'class' in data` when `data` is a list). -/
def isStrClass : Json → Bool
  | Json.str s => s == "class"
  | _ => false

/-- Is the first list a leading segment of the second (char-wise)? -/
def listLeads : List Char → List Char → Bool
  | [], _ => true
  | _ :: _, [] => false
  | a :: as, b :: bs => a == b && listLeads as bs

/-- Substring test on char lists, i.e. Python `needle in haystack` for
strings. -/
def strContains : List Char → List Char → Bool
  | needle, [] => listLeads needle []
  | needle, c :: rest => listLeads needle (c :: rest) || strContains needle rest

/-- The shared cache `self._latest_gps_data`: the `"TPV"` slot, the
`"SKY"` slot (both always dicts in every state the program produces)
and the `"last_update"` stamp. -/
structure Cache where
  tpv : List (String × Json)
  sky : List (String × Json)
  last : Time

/-- The cache as built in `HardwareManager.__init__` (lines 66-70):
`{"TPV": {"class": "TPV", "mode": 0}, "SKY": {"class": "SKY",
"satellites": []}, "last_update": 0}`. -/
def initCache : Cache :=
  { tpv := [("class", Json.str "TPV"), ("mode", Json.num 0)]
    sky := [("class", Json.str "SKY"), ("satellites", Json.arr [])]
    last := 0 }

/-- Python `'class' in data` for an arbitrary JSON value `data`:
key test on a dict, element test on a list, substring test on a string;
`TypeError` on null / bool / number (not iterable). -/
def pyIn (data : Json) : Except PyExc Bool :=
  match data with
  | Json.obj kvs => Except.ok (lookupKey kvs "class").isSome
  | Json.arr xs => Except.ok (xs.any isStrClass)
  | Json.str s => Except.ok (strContains "class".toList s.toList)
  | _ => Except.error PyExc.typeError

/-- Python `data['class']`: dict lookup on a dict; `TypeError` on a
list or string subscripted with a string; `TypeError` otherwise. -/
def pySubscript (data : Json) : Except PyExc Json :=
  match data with
  | Json.obj kvs =>
    match lookupKey kvs "class" with
    | some v => Except.ok v
    | none => Except.error PyExc.keyError
  | _ => Except.error PyExc.typeError

/-- The statement `self._latest_gps_data[data['class']] = data`
(line 108), for `data` whose `'class'` entry is `"TPV"` or `"SKY"`:
the matching slot is overwritten wholesale with the new report. -/
def writeSlot (c : Cache) (data : Json) : Cache :=
  match data with
  | Json.obj kvs =>
    match lookupKey kvs "class" with
    | some (Json.str "TPV") => { c with tpv := kvs }
    | some (Json.str "SKY") => { c with sky := kvs }
    | _ => c
  | _ => c

/-- One accepted update as executed under the lock (lines 108-109):
slot overwrite followed by `last_update = time.time()`. -/
def applyUpdate (c : Cache) (u : Json × Time) : Cache :=
  { writeSlot c u.1 with last := u.2 }

/-- Processing of one input line by the reader loop body
(lines 102-111), given the parse result of the line and the value of
`time.time()`: skip non-JSON lines, skip lines without a `'class'`
entry, skip recognized-JSON lines of other classes, store `TPV`/`SKY`
lines; `Except.error` is an exception escaping the inner `try`
(to be caught by the outer `except Exception`). -/
def processLine (p : Option Json) (c : Cache) (t : Time) : Except PyExc Cache :=
  match p with
  | none => Except.ok c
  | some data =>
    match pyIn data with
    | Except.error e => Except.error e
    | Except.ok false => Except.ok c
    | Except.ok true =>
      match pySubscript data with
      | Except.error e => Except.error e
      | Except.ok v =>
        match v with
        | Json.str s =>
          if s = "TPV" ∨ s = "SKY" then Except.ok (applyUpdate c (data, t))
          else Except.ok c
        | _ => Except.ok c

/-- A line is accepted (mutates the cache) iff it parses to a JSON dict
whose `'class'` entry is the string `"TPV"` or `"SKY"`. -/
def lineAccepted : Option Json → Bool
  | some (Json.obj kvs) =>
    match lookupKey kvs "class" with
    | some (Json.str s) => s == "TPV" || s == "SKY"
    | _ => false
  | _ => false

/-- The cache after a line-processing step: the new cache on normal
completion, the unchanged cache when an exception escaped (the source
raises, if at all, before either assignment of lines 108-109). -/
def resCache (r : Except PyExc Cache) (c : Cache) : Cache :=
  match r with
  | Except.ok c' => c'
  | Except.error _ => c

/-- Run the `for line in iter(process.stdout.readline, '')` loop over a
finite stream: each element is (parse result, `time.time()` at the
line).  Returns the final cache and, if an exception escaped the inner
`try`, that exception (the remaining lines are then abandoned). -/
def runLines : List (Option Json × Time) → Cache → Cache × Option PyExc
  | [], c => (c, none)
  | (p, t) :: rest, c =>
    match processLine p c t with
    | Except.ok c' => runLines rest c'
    | Except.error e => (c, some e)

/-- Outcome of one `subprocess.Popen(['gpspipe', '-w'], ...)` attempt:
either the command is missing (`FileNotFoundError`), or a stream of
lines that then reaches EOF. -/
inductive LaunchOutcome where
  | notFound
  | stream (lines : List (Option Json × Time))

def isStream : LaunchOutcome → Bool
  | LaunchOutcome.notFound => false
  | LaunchOutcome.stream _ => true

/-- Observable result of running the reader loop: final cache, number
of subprocess launch attempts, and whether the thread function
returned permanently. -/
structure ReaderResult where
  cache : Cache
  launches : Nat
  terminated : Bool

/-- The `while not self._stop_gps_thread.is_set()` loop of
`_gps_reader_thread` (lines 95-127), run over a finite list of launch
outcomes, with the stop event never set (as in the claims' scenarios).
`FileNotFoundError` from `Popen`: critical log and `return` — the
thread terminates and attempts no further launch.  EOF of a stream:
warning, 5 s sleep, relaunch.  Any other exception escaping the read
loop: error log, 10 s sleep, relaunch.  When the outcome list is
exhausted the thread is still looping (`terminated = false`). -/
def readerRun : List LaunchOutcome → Cache → ReaderResult
  | [], c => { cache := c, launches := 0, terminated := false }
  | LaunchOutcome.notFound :: _, c => { cache := c, launches := 1, terminated := true }
  | LaunchOutcome.stream ls :: rest, c =>
    let r := readerRun rest (runLines ls c).1
    { cache := r.cache, launches := r.launches + 1, terminated := r.terminated }

/-- Python `d.get(k)` on a JSON-parsed dict: `None` (here `none`) both
when the key is missing and when its value is JSON `null`. -/
def pyGet (kvs : List (String × Json)) (k : String) : Option Json :=
  match lookupKey kvs k with
  | some Json.null => none
  | some v => some v
  | none => none

/-- Python `d.get(k, default)` on a JSON-parsed dict: the default only
when the key is missing. -/
def pyGetD (kvs : List (String × Json)) (k : String) (d : Json) : Json :=
  (lookupKey kvs k).getD d

/-- The altitude fallback of `get_best_gnss_data` (lines 216-220):
`altHAE`, else `altMSL`, else `alt`, first non-`None` wins. -/
def altFallback (tpv : List (String × Json)) : Option Json :=
  match pyGet tpv "altHAE" with
  | some v => some v
  | none =>
    match pyGet tpv "altMSL" with
    | some v => some v
    | none => pyGet tpv "alt"

/-- `fix_type_map.get(fix_mode, "Unknown")` (line 224) where
`fix_type_map = {0: 'No Fix', 1: 'No Fix', 2: '2D Fix', 3: '3D Fix'}`:
numbers compare by value (`2.0` hits the key `2`), `True`/`False` hash
like `1`/`0` (both map to `'No Fix'`), `None` and strings miss every
key and give the default, and an unhashable key (a JSON array or
object) raises `TypeError`. -/
def fixTypeGet : Json → Except PyExc String
  | Json.num q =>
    Except.ok
      (if q = 0 ∨ q = 1 then "No Fix"
       else if q = 2 then "2D Fix"
       else if q = 3 then "3D Fix"
       else "Unknown")
  | Json.bool _ => Except.ok "No Fix"
  | Json.null => Except.ok "Unknown"
  | Json.str _ => Except.ok "Unknown"
  | Json.arr _ => Except.error PyExc.typeError
  | Json.obj _ => Except.error PyExc.typeError

/-- A JSON value usable as a Python dict key without `TypeError`. -/
def jsonHashable : Json → Bool
  | Json.arr _ => false
  | Json.obj _ => false
  | _ => true

/-- The normalized record returned by `get_best_gnss_data`
(lines 222-236). -/
structure NormalizedFix where
  source : String
  fix_type : String
  latitude : Option Json
  longitude : Option Json
  altitude_m : Option Json
  speed_mps : Option Json
  track_deg : Option Json
  climb_mps : Option Json
  time_utc : Option Json
  satellites_used : Json
  satellites_in_view : Json
  error_horizontal_m : Option Json
  error_vertical_m : Option Json

/-- Result of `get_best_gnss_data`: either the stale-data error dict or
the normalized fix dict. -/
inductive GnssResult where
  | staleError (errorMsg : String) (fix_type : String)
  | fix (r : NormalizedFix)

/-- The constant stale-data error dict of line 209. -/
def staleResult : GnssResult :=
  GnssResult.staleError "Stale GPS data. `gpspipe` stream may be down or no fix." "No Fix"

/-- `get_best_gnss_data` (lines 204-236), applied to the snapshot the
lock-protected read copies out, with `now` the value of `time.time()`:
the stale check, the fix-type mapping, the altitude fallback and the
field selection.  `Except.error` is the `TypeError` raised by the
fix-type dict lookup on an unhashable cached `mode` value. -/
def getBest (c : Cache) (now : Time) : Except PyExc GnssResult :=
  if 10 < now - c.last then
    Except.ok staleResult
  else
    match fixTypeGet (pyGetD c.tpv "mode" (Json.num 0)) with
    | Except.error e => Except.error e
    | Except.ok ft =>
      Except.ok (GnssResult.fix
        { source := "Realtime gpspipe Stream"
          fix_type := ft
          latitude := pyGet c.tpv "lat"
          longitude := pyGet c.tpv "lon"
          altitude_m := altFallback c.tpv
          speed_mps := pyGet c.tpv "speed"
          track_deg := pyGet c.tpv "track"
          climb_mps := pyGet c.tpv "climb"
          time_utc := pyGet c.tpv "time"
          satellites_used := pyGetD c.sky "uSat" (Json.num 0)
          satellites_in_view := pyGetD c.sky "nSat" (Json.num 0)
          error_horizontal_m := pyGet c.tpv "epx"
          error_vertical_m := pyGet c.tpv "epv" })

/-!
Micro-step machine for the singleton construction path
(`HardwareManager.__new__`, lines 48-52, and the guard / thread-start /
flag-set of `__init__`, lines 54-56, 85 and 88).  Neither method takes
any lock, so each bytecode-level action is a separate step that another
thread can interleave with.  Two constructing threads suffice for the
claims.  Program counters:
`l1` = `if cls._instance is None` (load + test);
`l2` = `cls._instance = super().__new__(cls)` (allocate + store);
`l3` = `cls._instance._initialized = False` (re-load `_instance`, set);
`l4` = `return cls._instance` (re-load);
`l5` = `if self._initialized: return` (guard of `__init__`);
`l6` = `self._gps_thread.start()`;
`l7` = `self._initialized = True`;
`fin` = construction finished; `err` = an exception escaped
(e.g. `AttributeError` when `_initialized` was never set).
-/

inductive CPc where
  | l1 | l2 | l3 | l4 | l5 | l6 | l7 | fin | err

/-- One constructing thread: program counter, the value it loaded at
`l1`, and the object `__new__` returned (`self` in `__init__`). -/
structure TState where
  pc : CPc
  r : Option Nat
  ret : Option Nat

/-- Shared state of the construction path: `cls._instance`, the
allocator (`nextId` also counts instances ever created), each object's
`_initialized` attribute (`none` = attribute not yet set), and the
number of GPS reader threads ever started. -/
structure SingSys where
  instSlot : Option Nat
  nextId : Nat
  flagOf : Nat → Option Bool
  started : Nat
  tA : TState
  tB : TState

def setFlag (f : Nat → Option Bool) (o : Nat) (b : Bool) : Nat → Option Bool :=
  fun x => if x = o then some b else f x

/-- One micro-step of one constructing thread. -/
def tstep (s : SingSys) (t : TState) : SingSys × TState :=
  match t.pc with
  | CPc.l1 =>
    match s.instSlot with
    | none => (s, { t with r := none, pc := CPc.l2 })
    | some o => (s, { t with r := some o, pc := CPc.l4 })
  | CPc.l2 =>
    ({ s with instSlot := some s.nextId, nextId := s.nextId + 1 }, { t with pc := CPc.l3 })
  | CPc.l3 =>
    match s.instSlot with
    | some o => ({ s with flagOf := setFlag s.flagOf o false }, { t with pc := CPc.l4 })
    | none => (s, { t with pc := CPc.err })
  | CPc.l4 => (s, { t with ret := s.instSlot, pc := CPc.l5 })
  | CPc.l5 =>
    match t.ret with
    | some o =>
      match s.flagOf o with
      | some true => (s, { t with pc := CPc.fin })
      | some false => (s, { t with pc := CPc.l6 })
      | none => (s, { t with pc := CPc.err })
    | none => (s, { t with pc := CPc.err })
  | CPc.l6 => ({ s with started := s.started + 1 }, { t with pc := CPc.l7 })
  | CPc.l7 =>
    match t.ret with
    | some o => ({ s with flagOf := setFlag s.flagOf o true }, { t with pc := CPc.fin })
    | none => (s, { t with pc := CPc.err })
  | CPc.fin => (s, t)
  | CPc.err => (s, t)

/-- Advance the scheduled thread one micro-step (`false` = thread A,
`true` = thread B). -/
def cstep (s : SingSys) (who : Bool) : SingSys :=
  if who then { (tstep s s.tB).1 with tB := (tstep s s.tB).2 }
  else { (tstep s s.tA).1 with tA := (tstep s s.tA).2 }

/-- Run a schedule of thread choices. -/
def crun (sched : List Bool) (s : SingSys) : SingSys :=
  sched.foldl cstep s

/-- A thread about to call `HardwareManager(...)`. -/
def freshT : TState := { pc := CPc.l1, r := none, ret := none }

/-- Process state before any construction: `_instance is None`, no
object allocated, no reader thread started. -/
def initSing : SingSys :=
  { instSlot := none, nextId := 0, flagOf := fun _ => none, started := 0
    tA := freshT, tB := freshT }

/-- The strictly alternating schedule A,B,A,B,… for 7 micro-steps of
each of the two threads. -/
def raceSched : List Bool :=
  [false, true, false, true, false, true, false, true, false, true,
   false, true, false, true]

/-- A process state in which one construction has fully completed:
`cls._instance` holds object `0` with `_initialized = True`, one
instance was allocated, one GPS reader thread was started, and
thread A is about to construct again. -/
def afterFirstCtor : SingSys :=
  { instSlot := some 0, nextId := 1, flagOf := setFlag (fun _ => none) 0 true
    started := 1, tA := freshT, tB := { pc := CPc.fin, r := none, ret := some 0 } }

/-!
Micro-step machine for the lock-protected cache (claim C2): one writer
thread (`_gps_reader_thread`, lines 105-109: acquire `_gps_lock`,
write the slot, write `last_update`, release) and arbitrarily many
reader threads (`get_best_gnss_data`, lines 206-211: acquire the same
lock, read `last_update`, read the `TPV` slot, read the `SKY` slot,
release).  The lock is explicit data; each field access is a separate
step, so the intermediate state in which the slot is written but
`last_update` is not yet stamped exists in the model — the theorem
shows no completed snapshot ever observes it.
-/

/-- Who holds `self._gps_lock`. -/
inductive Holder where
  | writer
  | reader (i : Nat)
deriving DecidableEq

/-- Writer program counter inside one `with self._gps_lock` block. -/
inductive WPc where
  | idle | locked | wrote | stamped
deriving DecidableEq

/-- Reader program counter inside one `with self._gps_lock` block. -/
inductive RPc where
  | start | haveLock | gotLast | gotTpv | gotSky | done
deriving DecidableEq

/-- One reader thread: program counter and the values copied out. -/
structure RSt where
  pc : RPc
  lastR : Time
  tpvR : List (String × Json)
  skyR : List (String × Json)

/-- The whole system: cache, lock, writer state (`wi` = number of
completed updates), and a reader for every index. -/
structure Sys where
  cache : Cache
  lock : Option Holder
  wpc : WPc
  wi : Nat
  readers : Nat → RSt

/-- Replace the state of reader `i`. -/
def updR (f : Nat → RSt) (i : Nat) (r : RSt) : Nat → RSt :=
  fun j => if j = i then r else f j

/-- The `k`-th accepted update (report, `time.time()` value). -/
def nthU (us : List (Json × Time)) (k : Nat) : Json × Time :=
  (us[k]?).getD (Json.null, 0)

/-- Cache contents after the first `k` updates of `us` have fully
completed, starting from `c0`. -/
def cacheAfter (us : List (Json × Time)) (c0 : Cache) (k : Nat) : Cache :=
  (us.take k).foldl applyUpdate c0

/-- Interleaving semantics: one micro-step of the writer or of one
reader, with mutual exclusion through the lock. -/
inductive Step (us : List (Json × Time)) : Sys → Sys → Prop where
  | acquireW (s : Sys) (h1 : s.wpc = WPc.idle) (h2 : s.lock = none)
      (h3 : s.wi < us.length) :
      Step us s { s with lock := some Holder.writer, wpc := WPc.locked }
  | writeSlotW (s : Sys) (h : s.wpc = WPc.locked) :
      Step us s { s with cache := writeSlot s.cache (nthU us s.wi).1, wpc := WPc.wrote }
  | writeLastW (s : Sys) (h : s.wpc = WPc.wrote) :
      Step us s { s with cache := { s.cache with last := (nthU us s.wi).2 }, wpc := WPc.stamped }
  | releaseW (s : Sys) (h : s.wpc = WPc.stamped) :
      Step us s { s with lock := none, wpc := WPc.idle, wi := s.wi + 1 }
  | acquireR (s : Sys) (i : Nat) (h1 : (s.readers i).pc = RPc.start)
      (h2 : s.lock = none) :
      Step us s { s with lock := some (Holder.reader i), readers := updR s.readers i { s.readers i with pc := RPc.haveLock } }
  | readLastR (s : Sys) (i : Nat) (h : (s.readers i).pc = RPc.haveLock) :
      Step us s { s with readers := updR s.readers i { s.readers i with pc := RPc.gotLast, lastR := s.cache.last } }
  | readTpvR (s : Sys) (i : Nat) (h : (s.readers i).pc = RPc.gotLast) :
      Step us s { s with readers := updR s.readers i { s.readers i with pc := RPc.gotTpv, tpvR := s.cache.tpv } }
  | readSkyR (s : Sys) (i : Nat) (h : (s.readers i).pc = RPc.gotTpv) :
      Step us s { s with readers := updR s.readers i { s.readers i with pc := RPc.gotSky, skyR := s.cache.sky } }
  | releaseR (s : Sys) (i : Nat) (h : (s.readers i).pc = RPc.gotSky) :
      Step us s { s with lock := none, readers := updR s.readers i { s.readers i with pc := RPc.done } }

/-- A reader that has not run yet. -/
def initRSt : RSt := { pc := RPc.start, lastR := 0, tpvR := [], skyR := [] }

/-- Initial system: cache `c0`, lock free, writer before its first
update, all readers unstarted. -/
def initSys (c0 : Cache) : Sys :=
  { cache := c0, lock := none, wpc := WPc.idle, wi := 0, readers := fun _ => initRSt }

/-- Reachability from the initial system under the interleaving
semantics. -/
def Reach (us : List (Json × Time)) (c0 : Cache) (s : Sys) : Prop :=
  Relation.ReflTransGen (Step us) (initSys c0) s

/-- Writer part of the inductive invariant: the program counter
determines who may hold the lock, how many updates are complete, and
the exact cache contents (including the mid-update intermediate
state). -/
def wInv (us : List (Json × Time)) (c0 : Cache) (s : Sys) : Prop :=
  s.wi ≤ us.length
  ∧ (s.wpc = WPc.idle → s.lock ≠ some Holder.writer ∧ s.cache = cacheAfter us c0 s.wi)
  ∧ (s.wpc = WPc.locked → s.wi < us.length ∧ s.lock = some Holder.writer
      ∧ s.cache = cacheAfter us c0 s.wi)
  ∧ (s.wpc = WPc.wrote → s.wi < us.length ∧ s.lock = some Holder.writer
      ∧ s.cache = writeSlot (cacheAfter us c0 s.wi) (nthU us s.wi).1)
  ∧ (s.wpc = WPc.stamped → s.wi < us.length ∧ s.lock = some Holder.writer
      ∧ s.cache = cacheAfter us c0 (s.wi + 1))

/-- Reader part of the inductive invariant: a reader inside its
critical section holds the lock and its registers copy the current
cache; a finished reader's registers equal the cache after some prefix
of completed updates. -/
def rInv (us : List (Json × Time)) (c0 : Cache) (s : Sys) (i : Nat) : Prop :=
  ((s.readers i).pc = RPc.haveLock → s.lock = some (Holder.reader i))
  ∧ ((s.readers i).pc = RPc.gotLast → s.lock = some (Holder.reader i)
      ∧ (s.readers i).lastR = s.cache.last)
  ∧ ((s.readers i).pc = RPc.gotTpv → s.lock = some (Holder.reader i)
      ∧ (s.readers i).lastR = s.cache.last ∧ (s.readers i).tpvR = s.cache.tpv)
  ∧ ((s.readers i).pc = RPc.gotSky → s.lock = some (Holder.reader i)
      ∧ (s.readers i).lastR = s.cache.last ∧ (s.readers i).tpvR = s.cache.tpv
      ∧ (s.readers i).skyR = s.cache.sky)
  ∧ ((s.readers i).pc = RPc.done → ∃ k, k ≤ us.length
      ∧ (s.readers i).lastR = (cacheAfter us c0 k).last
      ∧ (s.readers i).tpvR = (cacheAfter us c0 k).tpv
      ∧ (s.readers i).skyR = (cacheAfter us c0 k).sky)

/-- The full inductive invariant. -/
def SysInv (us : List (Json × Time)) (c0 : Cache) (s : Sys) : Prop :=
  wInv us c0 s ∧ ∀ i, rInv us c0 s i

/-- A cache whose `TPV` report carries an unhashable `mode` value —
produced by feeding the reader the valid JSON line
`{"class": "TPV", "mode": []}`. -/
def c1bad : Cache :=
  { tpv := [("class", Json.str "TPV"), ("mode", Json.arr [])]
    sky := initCache.sky
    last := 0 }

/-- A fresh cache whose `TPV` report has `mode = 99`. -/
def c5ex : Cache :=
  { tpv := [("class", Json.str "TPV"), ("mode", Json.num 99)]
    sky := initCache.sky
    last := 0 }

/-- A fresh cache whose `TPV` report carries both `altHAE` and
`altMSL`. -/
def c6ex : Cache :=
  { tpv := [("class", Json.str "TPV"), ("mode", Json.num 3),
            ("altHAE", Json.num 150), ("altMSL", Json.num 140)]
    sky := initCache.sky
    last := 0 }

/-- The record `get_best_gnss_data` produces for `c6ex` at second 1. -/
def c6exR : NormalizedFix :=
  { source := "Realtime gpspipe Stream"
    fix_type := "3D Fix"
    latitude := none
    longitude := none
    altitude_m := some (Json.num 150)
    speed_mps := none
    track_deg := none
    climb_mps := none
    time_utc := none
    satellites_used := Json.num 0
    satellites_in_view := Json.num 0
    error_horizontal_m := none
    error_vertical_m := none }

/-- A fresh cache whose `TPV` report has no `mode` entry at all. -/
def c10ex : Cache :=
  { tpv := [("class", Json.str "TPV"), ("lat", Json.num 36)]
    sky := initCache.sky
    last := 0 }

/-- A concrete `TPV` report used to exercise slot replacement. -/
def c7kvs : List (String × Json) :=
  [("class", Json.str "TPV"), ("mode", Json.num 3), ("lat", Json.num 36)]

/-- Concrete malformed lines: a non-JSON line, a JSON dict without a
`class` entry, a JSON dict of an unrecognized class, a bare JSON
number, and a JSON array containing the string `"class"`. -/
def badLines : List (Option Json × Time) :=
  [(none, 1),
   (some (Json.obj [("lat", Json.num 1)]), 2),
   (some (Json.obj [("class", Json.str "GST")]), 3),
   (some (Json.num 5), 4),
   (some (Json.arr [Json.str "class"]), 5)]

/-!  Theorems.  -/

/-- A line that is not accepted leaves the cache unchanged, whether the
line was skipped normally or an exception escaped the inner `try`. -/
theorem processLine_unaccepted (p : Option Json) (c : Cache) (t : Time)
    (h : lineAccepted p = false) : resCache (processLine p c t) c = c := by
  match p with
  | none => rfl
  | some Json.null => rfl
  | some (Json.bool b) => rfl
  | some (Json.num q) => rfl
  | some (Json.str s) =>
    simp only [processLine, pyIn]
    cases hb : strContains "class".toList s.toList <;> simp [pySubscript, resCache]
  | some (Json.arr xs) =>
    simp only [processLine, pyIn]
    cases hb : xs.any isStrClass <;> simp [pySubscript, resCache]
  | some (Json.obj kvs) =>
    simp only [processLine, pyIn]
    cases hk : lookupKey kvs "class" with
    | none => simp [resCache]
    | some v =>
      simp only [lineAccepted, hk] at h
      cases v with
      | str s =>
        simp only [Option.isSome_some, pySubscript, hk]
        have hs : ¬(s = "TPV" ∨ s = "SKY") := by
          simp only [Bool.or_eq_false_iff, beq_eq_false_iff_ne, ne_eq] at h
          tauto
        simp [hs, resCache]
      | null => simp [pySubscript, hk, resCache]
      | bool b => simp [pySubscript, hk, resCache]
      | num q => simp [pySubscript, hk, resCache]
      | arr xs => simp [pySubscript, hk, resCache]
      | obj f => simp [pySubscript, hk, resCache]

/-- An exception escaping line processing is never `FileNotFoundError`
(only the `Popen` call can raise that), so the outer handler always
continues the loop. -/
theorem processLine_no_fatal (p : Option Json) (c : Cache) (t : Time) (e : PyExc)
    (h : processLine p c t = Except.error e) : e = PyExc.typeError := by
  match p with
  | none => exact absurd h (by simp [processLine])
  | some Json.null => simp only [processLine, pyIn] at h; injection h with h'; exact h'.symm
  | some (Json.bool b) => simp only [processLine, pyIn] at h; injection h with h'; exact h'.symm
  | some (Json.num q) => simp only [processLine, pyIn] at h; injection h with h'; exact h'.symm
  | some (Json.str s) =>
    simp only [processLine, pyIn] at h
    cases hb : strContains "class".toList s.toList <;> rw [hb] at h <;>
      simp [pySubscript] at h
    exact h.symm
  | some (Json.arr xs) =>
    simp only [processLine, pyIn] at h
    cases hb : xs.any isStrClass <;> rw [hb] at h <;> simp [pySubscript] at h
    exact h.symm
  | some (Json.obj kvs) =>
    simp only [processLine, pyIn] at h
    cases hk : lookupKey kvs "class" with
    | none => rw [hk] at h; simp at h
    | some v =>
      rw [hk] at h
      simp only [Option.isSome_some, pySubscript, hk] at h
      cases v <;> simp at h
      case str s => split at h <;> simp at h

/-- A stream all of whose lines are unaccepted leaves the cache
unchanged. -/
theorem runLines_unaccepted (ls : List (Option Json × Time)) (c : Cache)
    (h : ∀ q ∈ ls, lineAccepted q.1 = false) : (runLines ls c).1 = c := by
  induction ls generalizing c with
  | nil => rfl
  | cons q rest ih =>
    have h1 := processLine_unaccepted q.1 c q.2 (h q (List.mem_cons_self q rest))
    simp only [runLines]
    cases hp : processLine q.1 c q.2 with
    | ok c' =>
      rw [hp] at h1
      simp only [resCache] at h1
      rw [h1]
      exact ih c fun x hx => h x (List.mem_cons_of_mem q hx)
    | error e => rfl

/-- C3: every input line that is not valid JSON, or is JSON lacking a
`class` tag, or is JSON with an unrecognized `class` tag, leaves all
cache fields unchanged; and a whole stream of such lines leaves the
reader loop alive (it relaunches the subprocess rather than
terminating), with the cache still unchanged. -/
theorem c3_malformed_line_resilience (c : Cache) :
    (∀ p t, lineAccepted p = false → resCache (processLine p c t) c = c)
    ∧ ∀ ls, (∀ q ∈ ls, lineAccepted q.1 = false) →
        readerRun [LaunchOutcome.stream ls] c =
          { cache := c, launches := 1, terminated := false } := by
  refine ⟨fun p t h => processLine_unaccepted p c t h, fun ls h => ?_⟩
  simp only [readerRun, runLines_unaccepted ls c h]

/-- C3 witness: the concrete malformed lines of `badLines` leave the
initial cache untouched and the reader loop alive after one launch. -/
theorem c3_malformed_line_resilience_witness :
    readerRun [LaunchOutcome.stream badLines] initCache =
      { cache := initCache, launches := 1, terminated := false } :=
  (c3_malformed_line_resilience initCache).2 badLines (by decide)

/-- C7: an accepted line of class `TPV` replaces the `TPV` slot
wholesale with the new report and stamps `last_update`, leaving the
`SKY` slot untouched; symmetrically for `SKY`. -/
theorem c7_wholesale_slot_replacement (c : Cache) (t : Time)
    (kvs : List (String × Json)) :
    (lookupKey kvs "class" = some (Json.str "TPV") →
      processLine (some (Json.obj kvs)) c t =
        Except.ok { tpv := kvs, sky := c.sky, last := t })
    ∧ (lookupKey kvs "class" = some (Json.str "SKY") →
      processLine (some (Json.obj kvs)) c t =
        Except.ok { tpv := c.tpv, sky := kvs, last := t }) := by
  constructor <;> intro h <;>
    simp [processLine, pyIn, pySubscript, h, applyUpdate, writeSlot]

/-- C7 witness: a concrete `TPV` line overwrites only the `TPV` slot of
the initial cache. -/
theorem c7_wholesale_slot_replacement_witness :
    processLine (some (Json.obj c7kvs)) initCache 42 =
      Except.ok { tpv := c7kvs, sky := initCache.sky, last := 42 } :=
  (c7_wholesale_slot_replacement initCache 42 c7kvs).1 rfl

/-- C4: a `FileNotFoundError` from `Popen` terminates the reader after
exactly one launch attempt, whatever would have come next; streams
that merely reach EOF are each relaunched, indefinitely, without
terminating the reader. -/
theorem c4_fatal_vs_transient (c : Cache) :
    (∀ rest, readerRun (LaunchOutcome.notFound :: rest) c =
      { cache := c, launches := 1, terminated := true })
    ∧ ∀ outs, outs.all isStream = true →
        (readerRun outs c).launches = outs.length
        ∧ (readerRun outs c).terminated = false := by
  refine ⟨fun rest => rfl, fun outs => ?_⟩
  induction outs generalizing c with
  | nil => intro _; exact ⟨rfl, rfl⟩
  | cons o rest ih =>
    intro h
    simp only [List.all_cons, Bool.and_eq_true] at h
    cases o with
    | notFound => simp [isStream] at h
    | stream ls =>
      have := ih (runLines ls c).1 h.2
      simp only [readerRun, List.length_cons]
      exact ⟨by rw [this.1], this.2⟩

/-- C4 witness: concretely, `FileNotFoundError` stops everything even
with more outcomes pending, while two EOF streams give two launches
and a still-running reader. -/
theorem c4_fatal_vs_transient_witness :
    readerRun [LaunchOutcome.notFound, LaunchOutcome.stream []] initCache =
      { cache := initCache, launches := 1, terminated := true }
    ∧ (readerRun [LaunchOutcome.stream [], LaunchOutcome.stream []] initCache).launches = 2
    ∧ (readerRun [LaunchOutcome.stream [], LaunchOutcome.stream []] initCache).terminated
        = false :=
  ⟨(c4_fatal_vs_transient initCache).1 [LaunchOutcome.stream []],
   (c4_fatal_vs_transient initCache).2 [LaunchOutcome.stream [], LaunchOutcome.stream []] rfl⟩

/-- C1 (amended): the stale-data error is returned iff
`now - last_update` exceeds 10 seconds; for an elapsed time of 10
seconds or less the stale error is never returned, and the normalized
fix record is returned whenever the cached `mode` value is hashable
(in particular for every numeric mode) — an array- or object-valued
`mode` instead makes the fix-type dictionary lookup raise `TypeError`. -/
theorem c1_staleness_boundary_amended (c : Cache) (now : Time) :
    (getBest c now = Except.ok staleResult ↔ 10 < now - c.last)
    ∧ (now - c.last ≤ 10 →
        jsonHashable (pyGetD c.tpv "mode" (Json.num 0)) = true →
          ∃ r, getBest c now = Except.ok (GnssResult.fix r)) := by
  by_cases hs : 10 < now - c.last
  · exact ⟨⟨fun _ => hs, fun _ => by simp [getBest, if_pos hs]⟩,
      fun h' => absurd hs (not_lt.mpr h')⟩
  · constructor
    · refine ⟨fun h => ?_, fun h => absurd h hs⟩
      exfalso
      unfold getBest at h
      rw [if_neg hs] at h
      cases hft : fixTypeGet (pyGetD c.tpv "mode" (Json.num 0)) <;>
        rw [hft] at h <;> simp [staleResult] at h
    · intro _ hhash
      cases hm : pyGetD c.tpv "mode" (Json.num 0) with
      | arr xs => rw [hm] at hhash; simp [jsonHashable] at hhash
      | obj f => rw [hm] at hhash; simp [jsonHashable] at hhash
      | null => exact ⟨_, by unfold getBest; rw [if_neg hs, hm]; rfl⟩
      | bool b => exact ⟨_, by unfold getBest; rw [if_neg hs, hm]; rfl⟩
      | num q => exact ⟨_, by unfold getBest; rw [if_neg hs, hm]; rfl⟩
      | str s => exact ⟨_, by unfold getBest; rw [if_neg hs, hm]; rfl⟩

/-- C1 witness: a fresh read of the initial cache (4 seconds after its
stamp) is not the stale error and yields a fix record. -/
theorem c1_staleness_boundary_witness :
    ∃ r, getBest initCache 4 = Except.ok (GnssResult.fix r) :=
  (c1_staleness_boundary_amended initCache 4).2 (by norm_num [initCache]) rfl

/-- C1 counterexample: with the (reachable) cache `c1bad`, whose `TPV`
report is the valid JSON `{"class": "TPV", "mode": []}`, a read only
5 seconds after the stamp is fresh, yet `get_best_gnss_data` raises
`TypeError` from `fix_type_map.get` instead of returning the
normalized fix record — refuting "for any elapsed time of 10 seconds
or less the façade returns the normalized fix record". -/
theorem c1_unhashable_mode_counterexample :
    (5 : Time) - c1bad.last ≤ 10
    ∧ getBest c1bad 5 = Except.error PyExc.typeError := by
  constructor
  · norm_num [c1bad]
  · unfold getBest
    rw [if_neg (by norm_num [c1bad])]
    rfl

/-- C5: on a fresh snapshot whose `TPV` report carries an integer fix
mode, the normalized `fix_type` is `"No Fix"` for 0 and 1, `"2D Fix"`
for 2, `"3D Fix"` for 3, and `"Unknown"` for every other integer. -/
theorem c5_fix_type_mapping (c : Cache) (now : Time) (n : ℤ)
    (h1 : now - c.last ≤ 10)
    (h2 : lookupKey c.tpv "mode" = some (Json.num n)) :
    ∃ r, getBest c now = Except.ok (GnssResult.fix r)
      ∧ r.fix_type =
          (if n = 0 ∨ n = 1 then "No Fix"
           else if n = 2 then "2D Fix"
           else if n = 3 then "3D Fix"
           else "Unknown") := by
  have hd : pyGetD c.tpv "mode" (Json.num 0) = Json.num n := by
    simp [pyGetD, h2]
  unfold getBest
  rw [if_neg (not_lt.mpr h1), hd]
  refine ⟨_, rfl, ?_⟩
  show (if (n : ℚ) = 0 ∨ (n : ℚ) = 1 then "No Fix"
    else if (n : ℚ) = 2 then "2D Fix"
    else if (n : ℚ) = 3 then "3D Fix"
    else "Unknown") = _
  have e0 : ((n : ℚ) = 0 ∨ (n : ℚ) = 1) ↔ (n = 0 ∨ n = 1) := by norm_cast
  have e2 : ((n : ℚ) = 2) ↔ (n = 2) := by norm_cast
  have e3 : ((n : ℚ) = 3) ↔ (n = 3) := by norm_cast
  simp only [e0, e2, e3]

/-- C5 witness: mode 99 on a fresh cache maps to `"Unknown"`. -/
theorem c5_fix_type_mapping_witness :
    ∃ r, getBest c5ex 1 = Except.ok (GnssResult.fix r) ∧ r.fix_type = "Unknown" := by
  have h := c5_fix_type_mapping c5ex 1 99 (by norm_num [c5ex]) rfl
  simpa using h

/-- C10: when the fresh `TPV` report has no `mode` entry at all, the
default 0 applies before the mapping, so `fix_type` is `"No Fix"`,
not `"Unknown"`. -/
theorem c10_missing_mode_no_fix (c : Cache) (now : Time)
    (h1 : now - c.last ≤ 10)
    (h2 : lookupKey c.tpv "mode" = none) :
    ∃ r, getBest c now = Except.ok (GnssResult.fix r) ∧ r.fix_type = "No Fix" := by
  have hd : pyGetD c.tpv "mode" (Json.num 0) = Json.num 0 := by
    simp [pyGetD, h2]
  unfold getBest
  rw [if_neg (not_lt.mpr h1), hd]
  refine ⟨_, rfl, ?_⟩
  norm_num

/-- C10 witness: the concrete modeless report `c10ex` yields
`"No Fix"` on a fresh read. -/
theorem c10_missing_mode_no_fix_witness :
    ∃ r, getBest c10ex 1 = Except.ok (GnssResult.fix r) ∧ r.fix_type = "No Fix" :=
  c10_missing_mode_no_fix c10ex 1 (by norm_num [c10ex]) rfl

/-- C6: whenever the façade produces a fix record, its altitude is the
first non-null of `altHAE`, `altMSL`, `alt` in that fixed order, and is
null when all three are absent — never a blend. -/
theorem c6_altitude_fallback (c : Cache) (now : Time) (r : NormalizedFix)
    (h : getBest c now = Except.ok (GnssResult.fix r)) :
    (∀ v, pyGet c.tpv "altHAE" = some v → r.altitude_m = some v)
    ∧ (pyGet c.tpv "altHAE" = none →
        ∀ v, pyGet c.tpv "altMSL" = some v → r.altitude_m = some v)
    ∧ (pyGet c.tpv "altHAE" = none → pyGet c.tpv "altMSL" = none →
        r.altitude_m = pyGet c.tpv "alt") := by
  have halt : r.altitude_m = altFallback c.tpv := by
    unfold getBest at h
    by_cases hs : 10 < now - c.last
    · rw [if_pos hs] at h
      simp [staleResult] at h
    · rw [if_neg hs] at h
      cases hft : fixTypeGet (pyGetD c.tpv "mode" (Json.num 0)) with
      | error e => rw [hft] at h; simp at h
      | ok ft =>
        rw [hft] at h
        simp only [Except.ok.injEq, GnssResult.fix.injEq] at h
        rw [← h]
  refine ⟨fun v hv => ?_, fun h0 v hv => ?_, fun h0 h1 => ?_⟩
  · rw [halt]; unfold altFallback; rw [hv]
  · rw [halt]; unfold altFallback; rw [h0, hv]
  · rw [halt]; unfold altFallback; rw [h0, h1]

/-- C6 witness: with both `altHAE = 150` and `altMSL = 140` present on
a fresh cache, the normalized altitude is the ellipsoidal 150. -/
theorem c6_altitude_fallback_witness :
    getBest c6ex 1 = Except.ok (GnssResult.fix c6exR)
    ∧ c6exR.altitude_m = some (Json.num 150) := by
  have h : getBest c6ex 1 = Except.ok (GnssResult.fix c6exR) := by
    unfold getBest
    rw [if_neg (by norm_num [c6ex])]
    rfl
  exact ⟨h, (c6_altitude_fallback c6ex 1 c6exR h).1 (Json.num 150) rfl⟩

/-- C8: before any line has ever been accepted the cache carries
`last_update = 0` (the Unix epoch), so every façade call — the wall
clock always reads more than 10 seconds past the epoch — returns
exactly the same constant stale-error dict that is returned after a
fatal tooling fault or during a restart gap, never numeric data. -/
theorem c8_initial_cache_stale (now : Time) (h : 10 < now) :
    getBest initCache now = Except.ok staleResult
    ∧ ∀ c : Cache, 10 < now - c.last → getBest c now = Except.ok staleResult := by
  constructor
  · unfold getBest
    rw [if_pos (by simpa [initCache] using h)]
  · intro c hc
    unfold getBest
    rw [if_pos hc]

/-- C8 witness: at wall-clock second 3600 the virgin cache reads
stale. -/
theorem c8_initial_cache_stale_witness :
    getBest initCache 3600 = Except.ok staleResult :=
  (c8_initial_cache_stale 3600 (by norm_num)).1

theorem updR_self (f : Nat → RSt) (i : Nat) (r : RSt) : updR f i r i = r := by
  simp [updR]

theorem updR_other (f : Nat → RSt) (i : Nat) (r : RSt) (j : Nat) (h : j ≠ i) :
    updR f i r j = f j := by
  simp [updR, h]

/-- Completing the `k`-th update advances the prefix-state by exactly
one `applyUpdate`. -/
theorem cacheAfter_succ (us : List (Json × Time)) (c0 : Cache) (k : Nat)
    (h : k < us.length) :
    cacheAfter us c0 (k + 1) = applyUpdate (cacheAfter us c0 k) (nthU us k) := by
  have hk : us[k]? = some us[k] := List.getElem?_eq_getElem h
  unfold cacheAfter nthU
  rw [List.take_succ, List.foldl_append, hk]
  simp

/-- If nobody (in particular not the writer) holds the lock as writer,
the writer is between updates and the cache is exactly the state after
its `wi` completed updates. -/
theorem writer_idle_of_lock (us : List (Json × Time)) (c0 : Cache) (s : Sys)
    (hInv : SysInv us c0 s) (h : s.lock ≠ some Holder.writer) :
    s.wpc = WPc.idle ∧ s.cache = cacheAfter us c0 s.wi := by
  obtain ⟨⟨hlen, hidle, hlocked, hwrote, hstamp⟩, _⟩ := hInv
  cases hw : s.wpc with
  | idle => exact ⟨rfl, (hidle hw).2⟩
  | locked => exact absurd (hlocked hw).2.1 h
  | wrote => exact absurd (hwrote hw).2.1 h
  | stamped => exact absurd (hstamp hw).2.1 h

/-- One interleaving step preserves the invariant. -/
theorem step_preserves (us : List (Json × Time)) (c0 : Cache) (s s' : Sys)
    (hInv : SysInv us c0 s) (hs : Step us s s') : SysInv us c0 s' := by
  have hInv' := hInv
  obtain ⟨⟨hlen, hidle, hlocked, hwrote, hstamp⟩, hr⟩ := hInv
  cases hs with
  | acquireW h1 h2 h3 =>
    refine ⟨⟨hlen, ?_, ?_, ?_, ?_⟩, fun j => ⟨?_, ?_, ?_, ?_, fun hpc => (hr j).2.2.2.2 hpc⟩⟩
    · intro h'; simp at h'
    · intro _; exact ⟨h3, rfl, (hidle h1).2⟩
    · intro h'; simp at h'
    · intro h'; simp at h'
    · intro hpc; have hx := (hr j).1 hpc; rw [h2] at hx; exact Option.noConfusion hx
    · intro hpc; have hx := ((hr j).2.1 hpc).1; rw [h2] at hx; exact Option.noConfusion hx
    · intro hpc; have hx := ((hr j).2.2.1 hpc).1; rw [h2] at hx; exact Option.noConfusion hx
    · intro hpc; have hx := ((hr j).2.2.2.1 hpc).1; rw [h2] at hx; exact Option.noConfusion hx
  | writeSlotW h =>
    have hl := hlocked h
    refine ⟨⟨hlen, ?_, ?_, ?_, ?_⟩, fun j => ⟨?_, ?_, ?_, ?_, fun hpc => (hr j).2.2.2.2 hpc⟩⟩
    · intro h'; simp at h'
    · intro h'; simp at h'
    · intro _
      refine ⟨hl.1, hl.2.1, ?_⟩
      show writeSlot s.cache (nthU us s.wi).1 = _
      rw [hl.2.2]
    · intro h'; simp at h'
    · intro hpc; have hx := (hr j).1 hpc; rw [hl.2.1] at hx
      injection hx with hx'; exact Holder.noConfusion hx'
    · intro hpc; have hx := ((hr j).2.1 hpc).1; rw [hl.2.1] at hx
      injection hx with hx'; exact Holder.noConfusion hx'
    · intro hpc; have hx := ((hr j).2.2.1 hpc).1; rw [hl.2.1] at hx
      injection hx with hx'; exact Holder.noConfusion hx'
    · intro hpc; have hx := ((hr j).2.2.2.1 hpc).1; rw [hl.2.1] at hx
      injection hx with hx'; exact Holder.noConfusion hx'
  | writeLastW h =>
    have hl := hwrote h
    refine ⟨⟨hlen, ?_, ?_, ?_, ?_⟩, fun j => ⟨?_, ?_, ?_, ?_, fun hpc => (hr j).2.2.2.2 hpc⟩⟩
    · intro h'; simp at h'
    · intro h'; simp at h'
    · intro h'; simp at h'
    · intro _
      refine ⟨hl.1, hl.2.1, ?_⟩
      show { s.cache with last := (nthU us s.wi).2 } = cacheAfter us c0 (s.wi + 1)
      rw [hl.2.2, cacheAfter_succ us c0 s.wi hl.1]
      rfl
    · intro hpc; have hx := (hr j).1 hpc; rw [hl.2.1] at hx
      injection hx with hx'; exact Holder.noConfusion hx'
    · intro hpc; have hx := ((hr j).2.1 hpc).1; rw [hl.2.1] at hx
      injection hx with hx'; exact Holder.noConfusion hx'
    · intro hpc; have hx := ((hr j).2.2.1 hpc).1; rw [hl.2.1] at hx
      injection hx with hx'; exact Holder.noConfusion hx'
    · intro hpc; have hx := ((hr j).2.2.2.1 hpc).1; rw [hl.2.1] at hx
      injection hx with hx'; exact Holder.noConfusion hx'
  | releaseW h =>
    have hl := hstamp h
    refine ⟨⟨hl.1, ?_, ?_, ?_, ?_⟩, fun j => ⟨?_, ?_, ?_, ?_, fun hpc => (hr j).2.2.2.2 hpc⟩⟩
    · intro _
      refine ⟨?_, hl.2.2⟩
      simp
    · intro h'; simp at h'
    · intro h'; simp at h'
    · intro h'; simp at h'
    · intro hpc; have hx := (hr j).1 hpc; rw [hl.2.1] at hx
      injection hx with hx'; exact Holder.noConfusion hx'
    · intro hpc; have hx := ((hr j).2.1 hpc).1; rw [hl.2.1] at hx
      injection hx with hx'; exact Holder.noConfusion hx'
    · intro hpc; have hx := ((hr j).2.2.1 hpc).1; rw [hl.2.1] at hx
      injection hx with hx'; exact Holder.noConfusion hx'
    · intro hpc; have hx := ((hr j).2.2.2.1 hpc).1; rw [hl.2.1] at hx
      injection hx with hx'; exact Holder.noConfusion hx'
  | acquireR i h1 h2 =>
    refine ⟨⟨hlen, ?_, ?_, ?_, ?_⟩, fun j => ?_⟩
    · intro h'
      refine ⟨?_, (hidle h').2⟩
      simp
    · intro h'; have hx := (hlocked h').2.1; rw [h2] at hx; exact Option.noConfusion hx
    · intro h'; have hx := (hwrote h').2.1; rw [h2] at hx; exact Option.noConfusion hx
    · intro h'; have hx := (hstamp h').2.1; rw [h2] at hx; exact Option.noConfusion hx
    · by_cases hij : j = i
      · subst hij
        refine ⟨fun _ => rfl, ?_, ?_, ?_, ?_⟩ <;>
          · intro hpc; simp [updR] at hpc
      · refine ⟨?_, ?_, ?_, ?_, ?_⟩
        · intro hpc
          simp only [updR, if_neg hij] at hpc
          have hx := (hr j).1 hpc
          rw [h2] at hx; exact Option.noConfusion hx
        · intro hpc
          simp only [updR, if_neg hij] at hpc
          have hx := ((hr j).2.1 hpc).1
          rw [h2] at hx; exact Option.noConfusion hx
        · intro hpc
          simp only [updR, if_neg hij] at hpc
          have hx := ((hr j).2.2.1 hpc).1
          rw [h2] at hx; exact Option.noConfusion hx
        · intro hpc
          simp only [updR, if_neg hij] at hpc
          have hx := ((hr j).2.2.2.1 hpc).1
          rw [h2] at hx; exact Option.noConfusion hx
        · intro hpc
          simp only [updR, if_neg hij] at hpc ⊢
          exact (hr j).2.2.2.2 hpc
  | readLastR i h =>
    have hlk := (hr i).1 h
    refine ⟨⟨hlen, hidle, hlocked, hwrote, hstamp⟩, fun j => ?_⟩
    by_cases hij : j = i
    · subst hij
      refine ⟨?_, ?_, ?_, ?_, ?_⟩
      · intro hpc; simp [updR] at hpc
      · intro _
        refine ⟨hlk, ?_⟩
        simp [updR]
      · intro hpc; simp [updR] at hpc
      · intro hpc; simp [updR] at hpc
      · intro hpc; simp [updR] at hpc
    · refine ⟨?_, ?_, ?_, ?_, ?_⟩
      · intro hpc
        simp only [updR, if_neg hij] at hpc
        have hx := (hr j).1 hpc
        rw [hlk] at hx
        injection hx with hx'
        injection hx' with hx2
        exact absurd hx2.symm hij
      · intro hpc
        simp only [updR, if_neg hij] at hpc
        have hx := ((hr j).2.1 hpc).1
        rw [hlk] at hx
        injection hx with hx'
        injection hx' with hx2
        exact absurd hx2.symm hij
      · intro hpc
        simp only [updR, if_neg hij] at hpc
        have hx := ((hr j).2.2.1 hpc).1
        rw [hlk] at hx
        injection hx with hx'
        injection hx' with hx2
        exact absurd hx2.symm hij
      · intro hpc
        simp only [updR, if_neg hij] at hpc
        have hx := ((hr j).2.2.2.1 hpc).1
        rw [hlk] at hx
        injection hx with hx'
        injection hx' with hx2
        exact absurd hx2.symm hij
      · intro hpc
        simp only [updR, if_neg hij] at hpc ⊢
        exact (hr j).2.2.2.2 hpc
  | readTpvR i h =>
    have hpre := (hr i).2.1 h
    have hlk := hpre.1
    refine ⟨⟨hlen, hidle, hlocked, hwrote, hstamp⟩, fun j => ?_⟩
    by_cases hij : j = i
    · subst hij
      refine ⟨?_, ?_, ?_, ?_, ?_⟩
      · intro hpc; simp [updR] at hpc
      · intro hpc; simp [updR] at hpc
      · intro _
        refine ⟨hlk, ?_, ?_⟩
        · simp [updR, hpre.2]
        · simp [updR]
      · intro hpc; simp [updR] at hpc
      · intro hpc; simp [updR] at hpc
    · refine ⟨?_, ?_, ?_, ?_, ?_⟩
      · intro hpc
        simp only [updR, if_neg hij] at hpc
        have hx := (hr j).1 hpc
        rw [hlk] at hx
        injection hx with hx'
        injection hx' with hx2
        exact absurd hx2.symm hij
      · intro hpc
        simp only [updR, if_neg hij] at hpc
        have hx := ((hr j).2.1 hpc).1
        rw [hlk] at hx
        injection hx with hx'
        injection hx' with hx2
        exact absurd hx2.symm hij
      · intro hpc
        simp only [updR, if_neg hij] at hpc
        have hx := ((hr j).2.2.1 hpc).1
        rw [hlk] at hx
        injection hx with hx'
        injection hx' with hx2
        exact absurd hx2.symm hij
      · intro hpc
        simp only [updR, if_neg hij] at hpc
        have hx := ((hr j).2.2.2.1 hpc).1
        rw [hlk] at hx
        injection hx with hx'
        injection hx' with hx2
        exact absurd hx2.symm hij
      · intro hpc
        simp only [updR, if_neg hij] at hpc ⊢
        exact (hr j).2.2.2.2 hpc
  | readSkyR i h =>
    have hpre := (hr i).2.2.1 h
    have hlk := hpre.1
    refine ⟨⟨hlen, hidle, hlocked, hwrote, hstamp⟩, fun j => ?_⟩
    by_cases hij : j = i
    · subst hij
      refine ⟨?_, ?_, ?_, ?_, ?_⟩
      · intro hpc; simp [updR] at hpc
      · intro hpc; simp [updR] at hpc
      · intro hpc; simp [updR] at hpc
      · intro _
        refine ⟨hlk, ?_, ?_, ?_⟩
        · simp [updR, hpre.2.1]
        · simp [updR, hpre.2.2]
        · simp [updR]
      · intro hpc; simp [updR] at hpc
    · refine ⟨?_, ?_, ?_, ?_, ?_⟩
      · intro hpc
        simp only [updR, if_neg hij] at hpc
        have hx := (hr j).1 hpc
        rw [hlk] at hx
        injection hx with hx'
        injection hx' with hx2
        exact absurd hx2.symm hij
      · intro hpc
        simp only [updR, if_neg hij] at hpc
        have hx := ((hr j).2.1 hpc).1
        rw [hlk] at hx
        injection hx with hx'
        injection hx' with hx2
        exact absurd hx2.symm hij
      · intro hpc
        simp only [updR, if_neg hij] at hpc
        have hx := ((hr j).2.2.1 hpc).1
        rw [hlk] at hx
        injection hx with hx'
        injection hx' with hx2
        exact absurd hx2.symm hij
      · intro hpc
        simp only [updR, if_neg hij] at hpc
        have hx := ((hr j).2.2.2.1 hpc).1
        rw [hlk] at hx
        injection hx with hx'
        injection hx' with hx2
        exact absurd hx2.symm hij
      · intro hpc
        simp only [updR, if_neg hij] at hpc ⊢
        exact (hr j).2.2.2.2 hpc
  | releaseR i h =>
    have hpre := (hr i).2.2.2.1 h
    have hlk := hpre.1
    have hw := writer_idle_of_lock us c0 s hInv' (by rw [hlk]; simp)
    refine ⟨⟨hlen, ?_, ?_, ?_, ?_⟩, fun j => ?_⟩
    · intro h'
      refine ⟨?_, (hidle h').2⟩
      simp
    · intro h'; have hx := (hlocked h').2.1; rw [hlk] at hx
      injection hx with hx'; exact Holder.noConfusion hx'
    · intro h'; have hx := (hwrote h').2.1; rw [hlk] at hx
      injection hx with hx'; exact Holder.noConfusion hx'
    · intro h'; have hx := (hstamp h').2.1; rw [hlk] at hx
      injection hx with hx'; exact Holder.noConfusion hx'
    · by_cases hij : j = i
      · subst hij
        refine ⟨?_, ?_, ?_, ?_, ?_⟩
        · intro hpc; simp [updR] at hpc
        · intro hpc; simp [updR] at hpc
        · intro hpc; simp [updR] at hpc
        · intro hpc; simp [updR] at hpc
        · intro _
          refine ⟨s.wi, hlen, ?_, ?_, ?_⟩
          · simp [updR, hpre.2.1, hw.2]
          · simp [updR, hpre.2.2.1, hw.2]
          · simp [updR, hpre.2.2.2, hw.2]
      · refine ⟨?_, ?_, ?_, ?_, ?_⟩
        · intro hpc
          simp only [updR, if_neg hij] at hpc
          have hx := (hr j).1 hpc
          rw [hlk] at hx
          injection hx with hx'
          injection hx' with hx2
          exact absurd hx2.symm hij
        · intro hpc
          simp only [updR, if_neg hij] at hpc
          have hx := ((hr j).2.1 hpc).1
          rw [hlk] at hx
          injection hx with hx'
          injection hx' with hx2
          exact absurd hx2.symm hij
        · intro hpc
          simp only [updR, if_neg hij] at hpc
          have hx := ((hr j).2.2.1 hpc).1
          rw [hlk] at hx
          injection hx with hx'
          injection hx' with hx2
          exact absurd hx2.symm hij
        · intro hpc
          simp only [updR, if_neg hij] at hpc
          have hx := ((hr j).2.2.2.1 hpc).1
          rw [hlk] at hx
          injection hx with hx'
          injection hx' with hx2
          exact absurd hx2.symm hij
        · intro hpc
          simp only [updR, if_neg hij] at hpc ⊢
          exact (hr j).2.2.2.2 hpc

/-- The invariant holds at the initial system. -/
theorem init_inv (us : List (Json × Time)) (c0 : Cache) : SysInv us c0 (initSys c0) := by
  refine ⟨⟨Nat.zero_le _, ?_, ?_, ?_, ?_⟩, fun j => ⟨?_, ?_, ?_, ?_, ?_⟩⟩
  · intro _
    exact ⟨by simp [initSys], rfl⟩
  · intro h; simp [initSys] at h
  · intro h; simp [initSys] at h
  · intro h; simp [initSys] at h
  · intro hpc; simp [initSys, initRSt] at hpc
  · intro hpc; simp [initSys, initRSt] at hpc
  · intro hpc; simp [initSys, initRSt] at hpc
  · intro hpc; simp [initSys, initRSt] at hpc
  · intro hpc; simp [initSys, initRSt] at hpc

/-- Every reachable state satisfies the invariant. -/
theorem reach_inv (us : List (Json × Time)) (c0 : Cache) (s : Sys)
    (h : Reach us c0 s) : SysInv us c0 s := by
  induction h with
  | refl => exact init_inv us c0
  | tail _ hbc ih => exact step_preserves us c0 _ _ ih hbc

/-- C2: in every reachable interleaving of the writer's lock-protected
updates with any number of concurrent lock-protected snapshot reads,
every completed snapshot equals the cache state left by some prefix of
fully completed updates — never a blend of two updates' fields and
never the intermediate state of a half-applied update. -/
theorem c2_snapshot_atomicity (us : List (Json × Time)) (c0 : Cache) (s : Sys)
    (h : Reach us c0 s) (i : Nat) (hdone : (s.readers i).pc = RPc.done) :
    ∃ k, k ≤ us.length
      ∧ (s.readers i).lastR = (cacheAfter us c0 k).last
      ∧ (s.readers i).tpvR = (cacheAfter us c0 k).tpv
      ∧ (s.readers i).skyR = (cacheAfter us c0 k).sky :=
  ((reach_inv us c0 s h).2 i).2.2.2.2 hdone

/-- A one-update schedule used to exhibit a concrete interleaving. -/
def c2us : List (Json × Time) :=
  [(Json.obj [("class", Json.str "TPV"), ("mode", Json.num 3)], 7)]

def c2s0 : Sys := initSys initCache

def c2s1 : Sys := { c2s0 with lock := some Holder.writer, wpc := WPc.locked }

def c2s2 : Sys :=
  { c2s1 with cache := writeSlot c2s1.cache (nthU c2us c2s1.wi).1, wpc := WPc.wrote }

def c2s3 : Sys :=
  { c2s2 with cache := { c2s2.cache with last := (nthU c2us c2s2.wi).2 }, wpc := WPc.stamped }

def c2s4 : Sys := { c2s3 with lock := none, wpc := WPc.idle, wi := c2s3.wi + 1 }

def c2s5 : Sys :=
  { c2s4 with lock := some (Holder.reader 0), readers := updR c2s4.readers 0 { c2s4.readers 0 with pc := RPc.haveLock } }

def c2s6 : Sys :=
  { c2s5 with readers := updR c2s5.readers 0 { c2s5.readers 0 with pc := RPc.gotLast, lastR := c2s5.cache.last } }

def c2s7 : Sys :=
  { c2s6 with readers := updR c2s6.readers 0 { c2s6.readers 0 with pc := RPc.gotTpv, tpvR := c2s6.cache.tpv } }

def c2s8 : Sys :=
  { c2s7 with readers := updR c2s7.readers 0 { c2s7.readers 0 with pc := RPc.gotSky, skyR := c2s7.cache.sky } }

def c2s9 : Sys :=
  { c2s8 with lock := none, readers := updR c2s8.readers 0 { c2s8.readers 0 with pc := RPc.done } }

/-- A concrete execution: one full update, then one full snapshot. -/
theorem c2_reach_example : Reach c2us initCache c2s9 :=
  Relation.ReflTransGen.tail (Relation.ReflTransGen.tail (Relation.ReflTransGen.tail
    (Relation.ReflTransGen.tail (Relation.ReflTransGen.tail (Relation.ReflTransGen.tail
      (Relation.ReflTransGen.tail (Relation.ReflTransGen.tail (Relation.ReflTransGen.single
        (Step.acquireW c2s0 rfl rfl (by decide)))
        (Step.writeSlotW c2s1 rfl))
        (Step.writeLastW c2s2 rfl))
        (Step.releaseW c2s3 rfl))
        (Step.acquireR c2s4 0 rfl rfl))
        (Step.readLastR c2s5 0 rfl))
        (Step.readTpvR c2s6 0 rfl))
        (Step.readSkyR c2s7 0 rfl))
        (Step.releaseR c2s8 0 rfl)

/-- C2 witness: the completed snapshot of the concrete execution
equals the cache after some prefix of completed updates. -/
theorem c2_snapshot_atomicity_witness :
    ∃ k, k ≤ c2us.length
      ∧ (c2s9.readers 0).lastR = (cacheAfter c2us initCache k).last
      ∧ (c2s9.readers 0).tpvR = (cacheAfter c2us initCache k).tpv
      ∧ (c2s9.readers 0).skyR = (cacheAfter c2us initCache k).sky :=
  c2_snapshot_atomicity c2us initCache c2s9 c2_reach_example 0 rfl

/-- C9 (amended): once a first construction has fully completed
(`cls._instance` set, `_initialized = True`), a later sequential
construction takes the not-`None` branch of `__new__` and the early
return of `__init__`: it allocates no new instance, starts no new
reader thread, and returns the existing object.  (The concurrent half
of the original claim is refuted separately: the construction path
takes no lock.) -/
theorem c9_singleton_sequential_amended (s : SingSys) (o : Nat)
    (h1 : s.instSlot = some o) (h2 : s.flagOf o = some true) (h3 : s.tA.pc = CPc.l1) :
    (crun [false, false, false] s).nextId = s.nextId
    ∧ (crun [false, false, false] s).started = s.started
    ∧ (crun [false, false, false] s).instSlot = some o
    ∧ (crun [false, false, false] s).tA.ret = some o
    ∧ (crun [false, false, false] s).tA.pc = CPc.fin := by
  simp [crun, cstep, tstep, h1, h2, h3]

/-- C9 witness: after the completed first construction of
`afterFirstCtor` (one instance, one reader thread), re-running the
construction sequentially changes no counts and returns object 0. -/
theorem c9_singleton_sequential_witness :
    (crun [false, false, false] afterFirstCtor).nextId = 1
    ∧ (crun [false, false, false] afterFirstCtor).started = 1
    ∧ (crun [false, false, false] afterFirstCtor).instSlot = some 0
    ∧ (crun [false, false, false] afterFirstCtor).tA.ret = some 0
    ∧ (crun [false, false, false] afterFirstCtor).tA.pc = CPc.fin :=
  c9_singleton_sequential_amended afterFirstCtor 0 rfl rfl rfl

/-- C9 counterexample: `__new__`/`__init__` take no lock, so under the
strictly alternating interleaving of two first-time constructors both
threads see `cls._instance is None`, both allocate, and both pass the
`_initialized` guard before either sets it: two instances are created
and two GPS reader threads are started — refuting "at most one
instance is created and at most one Stream Reader thread is ever
started" under concurrent first initialization. -/
theorem c9_concurrent_ctor_counterexample :
    (crun raceSched initSing).nextId = 2 ∧ (crun raceSched initSing).started = 2 :=
  ⟨rfl, rfl⟩

end PiBackend
